import Mathlib

/-!
Verification of the reachymini_vnengine visual-novel engine.

The definitions below are a shallow embedding of the Python sources
(`engine.py`, `app.py`).  Pure data classes become Lean structures; the
stateful `VisualNovelBuilder` becomes explicit state passing over a
`Builder` record; Python exceptions and the one potentially diverging
loop become `Except` results.  Because the claims include heap-aliasing
properties, the embedding additionally instruments every allocation of a
mutable Python object (a dataclass instance, a dict, a list) with a
fresh address drawn from a counter: each emitted scene carries the set
of addresses of its mutable constituents, exactly one fresh address per
object the Python code allocates (`copy.deepcopy` allocates a fresh copy
of every nested object).  Strings and other immutable Python values get
no address.
-/

/-- Default background URL from `engine.py`. -/
def DEFAULT_BACKGROUND : String :=
  "https://images.unsplash.com/photo-1506744038136-46273834b3fb?auto=format&fit=crop&w=1200&q=80"

/-- `CharacterDefinition` dataclass from `engine.py`. -/
structure CharacterDefinition where
  name : String
  image_url : String
  animated : Bool := false

/-- `CharacterSprite` dataclass from `engine.py`. -/
structure CharacterSprite where
  name : String
  image_url : String
  position : String := "center"
  visible : Bool := false
  animation : String := ""
  scale : Float := 1.0

/-- `Choice` dataclass from `engine.py`.  The target index is a Python
`int`, hence `Int`. -/
structure Choice where
  text : String
  next_scene_index : Int
deriving DecidableEq

/-- `InputRequest` dataclass from `engine.py`. -/
structure InputRequest where
  prompt : String
  variable_name : String
deriving DecidableEq

/-- `MotorCommand` dataclass from `engine.py`. -/
structure MotorCommand where
  motor_id : Int
  position : Int
deriving DecidableEq

/-- `RobotPose` dataclass from `engine.py`. -/
structure RobotPose where
  head_x : Float := 0.0
  head_y : Float := 0.0
  head_z : Float := 0.0
  head_roll : Float := 0.0
  head_pitch : Float := 0.0
  head_yaw : Float := 0.0
  body_yaw : Float := 0.0
  antenna_left : Float := 0.0
  antenna_right : Float := 0.0

/-- `SceneState` dataclass from `engine.py`.  The `characters` dict is
modelled as an association list in insertion order (Python dicts
preserve insertion order). -/
structure SceneState where
  background_url : String
  background_label : String
  characters : List (String × CharacterSprite)
  speaker : String
  text : String
  note : String
  show_camera : Bool := false
  show_voice : Bool := false
  show_motors : Bool := false
  show_robot : Bool := false
  background_blur : Int := 0
  stage_url : String := ""
  stage_blur : Int := 0
  choices : Option (List Choice) := none
  input_request : Option InputRequest := none
  path : Option String := none
  motor_commands : List MotorCommand := []
  audio_file : Option String := none
  robot_pose : Option RobotPose := none

/-- Python slice `text[:30]`. -/
def pyTake (n : Nat) (s : String) : String := ⟨s.data.take n⟩

/-- Dict write `d[k] = v` on an insertion-ordered association list:
overwriting keeps the original position, a new key is appended. -/
def dictSet (l : List (String × String)) (k v : String) : List (String × String) :=
  if l.any (fun kv => kv.1 = k) then
    l.map (fun kv => if kv.1 = k then (k, v) else kv)
  else l ++ [(k, v)]

/-- Dict write for the character-sprite mapping (same Python dict
semantics as `dictSet`). -/
def spriteSet (l : List (String × CharacterSprite)) (k : String) (v : CharacterSprite) :
    List (String × CharacterSprite) :=
  if l.any (fun kv => kv.1 = k) then
    l.map (fun kv => if kv.1 = k then (k, v) else kv)
  else l ++ [(k, v)]

/-- In-place mutation of the sprite stored under `name`, as in
`state.characters[name].visible = True` guarded by
`if name in state.characters`; a missing key leaves the dict unchanged. -/
def updateSprite (l : List (String × CharacterSprite)) (name : String)
    (f : CharacterSprite → CharacterSprite) : List (String × CharacterSprite) :=
  l.map (fun kv => if kv.1 = name then (kv.1, f kv.2) else kv)

/-- One emitted snapshot: its pure content plus the addresses of the
mutable Python objects that make it up (the `SceneState` instance, its
`characters` dict, each `CharacterSprite`, the `motor_commands` list and
its `MotorCommand` elements, the optional `InputRequest` and `RobotPose`
objects, and the optional `choices` list with its `Choice` elements). -/
structure BScene where
  data : SceneState
  fp : List Nat

/-- The `VisualNovelBuilder` state from `engine.py`, with the allocation
instrumentation described in the file header.  `statesAddr` is the
address of the `self._states` list object allocated in `__init__` and
never rebound; `ctr` is the next fresh address; `tmplFp` holds the
addresses of the running-template `self._current_sprites` dict and the
sprite objects inside it. -/
structure Builder where
  statesAddr : Nat
  states : List BScene
  ctr : Nat
  character_defs : List (String × CharacterDefinition)
  current_background : String
  current_label : String
  current_sprites : List (String × CharacterSprite)
  tmplFp : List Nat
  current_show_camera : Bool
  current_show_voice : Bool
  current_show_motors : Bool
  current_show_robot : Bool
  current_background_blur : Int
  current_stage : String
  current_stage_blur : Int
  current_path : Option String

/-- `VisualNovelBuilder.__init__`: address 0 is the `_states` list,
address 1 the `_current_sprites` dict. -/
def initBuilder : Builder where
  statesAddr := 0
  states := []
  ctr := 2
  character_defs := []
  current_background := DEFAULT_BACKGROUND
  current_label := ""
  current_sprites := []
  tmplFp := [1]
  current_show_camera := false
  current_show_voice := false
  current_show_motors := false
  current_show_robot := false
  current_background_blur := 0
  current_stage := ""
  current_stage_blur := 0
  current_path := none

/-- `VisualNovelBuilder._clone_state`: a fresh `SceneState` whose
`characters` is a deep copy of the running template. -/
def cloneState (b : Builder) : SceneState where
  background_url := b.current_background
  background_label := b.current_label
  characters := b.current_sprites
  speaker := ""
  text := ""
  note := ""
  show_camera := b.current_show_camera
  show_voice := b.current_show_voice
  show_motors := b.current_show_motors
  show_robot := b.current_show_robot
  background_blur := b.current_background_blur
  stage_url := b.current_stage
  stage_blur := b.current_stage_blur
  path := b.current_path

/-- Number of mutable Python objects making up a freshly pushed scene:
the `SceneState` instance, the `characters` dict, one per sprite, the
`motor_commands` list, one per motor command, and one each for the
optional `InputRequest`, `RobotPose`, and the `choices` list with its
elements. -/
def sceneFpSize (s : SceneState) : Nat :=
  2 + s.characters.length + 1 + s.motor_commands.length
    + (if s.input_request.isSome then 1 else 0)
    + (if s.robot_pose.isSome then 1 else 0)
    + (match s.choices with | none => 0 | some l => 1 + l.length)

/-- The snapshot content a push emits: `_clone_state` composed with the
command-specific mutation of the clone applied before `_push_state`. -/
def pushedScene (b : Builder) (f : SceneState → SceneState) : SceneState := f (cloneState b)

/-- Fresh-address block of the snapshot a push emits. -/
def pushFp (b : Builder) (f : SceneState → SceneState) : List Nat :=
  List.range' b.ctr (sceneFpSize (pushedScene b f))

/-- Fresh-address block of the template deep copy a push makes. -/
def pushTmplFp (b : Builder) (f : SceneState → SceneState) : List Nat :=
  List.range' (b.ctr + sceneFpSize (pushedScene b f)) (1 + (pushedScene b f).characters.length)

/-- `_push_state` of the mutated clone: the new snapshot gets fresh
addresses for every mutable object it contains, and the template sprite
map is replaced by a fresh deep copy (`copy.deepcopy(state.characters)`)
with fresh addresses of its own. -/
def pushState (b : Builder) (f : SceneState → SceneState) : Builder :=
  { b with
    states := b.states ++ [⟨pushedScene b f, pushFp b f⟩]
    ctr := b.ctr + sceneFpSize (pushedScene b f) + (1 + (pushedScene b f).characters.length)
    current_background := (pushedScene b f).background_url
    current_label := (pushedScene b f).background_label
    current_sprites := (pushedScene b f).characters
    tmplFp := pushTmplFp b f }

/-- `VisualNovelBuilder.set_characters`: registers definitions and puts
one freshly allocated `CharacterSprite` per definition into the running
template dict. -/
def set_characters (b : Builder) (chars : List CharacterDefinition) : Builder :=
  { b with
    character_defs :=
      chars.foldl (fun acc c =>
        if acc.any (fun kv => kv.1 = c.name) then
          acc.map (fun kv => if kv.1 = c.name then (c.name, c) else kv)
        else acc ++ [(c.name, c)]) b.character_defs
    current_sprites :=
      chars.foldl (fun acc c =>
        spriteSet acc c.name
          { name := c.name, image_url := c.image_url, position := "center",
            visible := false, animation := if c.animated then "idle" else "" }) b.current_sprites
    tmplFp := b.tmplFp ++ List.range' b.ctr chars.length
    ctr := b.ctr + chars.length }

/-- `VisualNovelBuilder.set_background`. -/
def set_background (b : Builder) (image_url : String) (label : String := "") : Builder :=
  pushState b (fun s =>
    { s with background_url := image_url, background_label := label,
             note := "Background: " ++ (if label ≠ "" then label else "custom") })

/-- `VisualNovelBuilder.set_camera`. -/
def set_camera (b : Builder) (v : Bool) : Builder := { b with current_show_camera := v }

/-- `VisualNovelBuilder.set_voice`. -/
def set_voice (b : Builder) (v : Bool) : Builder := { b with current_show_voice := v }

/-- `VisualNovelBuilder.set_motors`. -/
def set_motors (b : Builder) (v : Bool) : Builder := { b with current_show_motors := v }

/-- `VisualNovelBuilder.set_robot`. -/
def set_robot (b : Builder) (v : Bool) : Builder := { b with current_show_robot := v }

/-- `VisualNovelBuilder.set_background_blur`. -/
def set_background_blur (b : Builder) (blur_amount : Int) : Builder :=
  { b with current_background_blur := blur_amount }

/-- `VisualNovelBuilder.set_stage`. -/
def set_stage (b : Builder) (image_url : String) : Builder := { b with current_stage := image_url }

/-- `VisualNovelBuilder.set_stage_blur`. -/
def set_stage_blur (b : Builder) (blur_amount : Int) : Builder :=
  { b with current_stage_blur := blur_amount }

/-- `VisualNovelBuilder.set_path`. -/
def set_path (b : Builder) (path : Option String) : Builder := { b with current_path := path }

/-- `VisualNovelBuilder.show_character`. -/
def show_character (b : Builder) (name : String) (position : String := "center") : Builder :=
  pushState b (fun s =>
    { s with characters := updateSprite s.characters name
               (fun sp => { sp with visible := true, position := position }),
             note := "Show " ++ name ++ " at " ++ position })

/-- `VisualNovelBuilder.hide_character`. -/
def hide_character (b : Builder) (name : String) : Builder :=
  pushState b (fun s =>
    { s with characters := updateSprite s.characters name (fun sp => { sp with visible := false }),
             note := "Hide " ++ name })

/-- `VisualNovelBuilder.move_character`. -/
def move_character (b : Builder) (name : String) (position : String) : Builder :=
  pushState b (fun s =>
    { s with characters := updateSprite s.characters name (fun sp => { sp with position := position }),
             note := "Move " ++ name ++ " to " ++ position })

/-- `VisualNovelBuilder.change_character_sprite`. -/
def change_character_sprite (b : Builder) (name : String) (image_url : String) : Builder :=
  pushState b (fun s =>
    { s with characters := updateSprite s.characters name (fun sp => { sp with image_url := image_url }),
             note := "Change " ++ name ++ " sprite" })

/-- `VisualNovelBuilder.set_character_animation`. -/
def set_character_animation (b : Builder) (name : String) (animation : String) : Builder :=
  pushState b (fun s =>
    { s with characters := updateSprite s.characters name (fun sp => { sp with animation := animation }),
             note := name ++ " animation: " ++ (if animation ≠ "" then animation else "none") })

/-- `VisualNovelBuilder.set_character_scale`. -/
def set_character_scale (b : Builder) (name : String) (scale : Float) : Builder :=
  pushState b (fun s =>
    { s with characters := updateSprite s.characters name (fun sp => { sp with scale := scale }),
             note := name ++ " scale: " ++ toString scale })

/-- `VisualNovelBuilder.dialogue`. -/
def dialogue (b : Builder) (speaker : String) (text : String) : Builder :=
  pushState b (fun s =>
    { s with speaker := speaker, text := text,
             note := speaker ++ ": " ++ pyTake 30 text ++ "..." })

/-- `VisualNovelBuilder.narration`. -/
def narration (b : Builder) (text : String) : Builder :=
  pushState b (fun s =>
    { s with speaker := "", text := text, note := "Narration: " ++ pyTake 30 text ++ "..." })

/-- `VisualNovelBuilder.request_input`. -/
def request_input (b : Builder) (prompt : String) (variable_name : String) : Builder :=
  pushState b (fun s =>
    { s with input_request := some ⟨prompt, variable_name⟩, note := "Input: " ++ variable_name })

/-- `VisualNovelBuilder.send_motor_command`. -/
def send_motor_command (b : Builder) (motor_id : Int) (position : Int) : Builder :=
  pushState b (fun s =>
    { s with motor_commands := s.motor_commands ++ [⟨motor_id, position⟩],
             note := "Motor " ++ toString motor_id ++ " → " ++ toString position ++ "°" })

/-- `VisualNovelBuilder.send_motor_commands`. -/
def send_motor_commands (b : Builder) (commands : List (Int × Int)) : Builder :=
  pushState b (fun s =>
    { s with motor_commands :=
               s.motor_commands ++ commands.map (fun c => ⟨c.1, c.2⟩),
             note := "Motors: " ++ toString commands.length ++ " commands" })

/-- `VisualNovelBuilder.send_robot_pose`. -/
def send_robot_pose (b : Builder) (pose : RobotPose) : Builder :=
  pushState b (fun s => { s with robot_pose := some pose, note := "Robot pose command" })

/-- `VisualNovelBuilder.play_sound`. -/
def play_sound (b : Builder) (audio_file : String) : Builder :=
  pushState b (fun s => { s with audio_file := some audio_file, note := "Audio: " ++ audio_file })

/-- Replace the last element of a list. -/
def modifyLast (f : α → α) : List α → List α
  | [] => []
  | [x] => [f x]
  | x :: y :: xs => x :: modifyLast f (y :: xs)

/-- `VisualNovelBuilder.add_choice`: guarded by `if self._states:`, it
mutates the most recently emitted snapshot in place, allocating the
choice list on first use plus one `Choice` object. -/
def add_choice (b : Builder) (text : String) (next_scene_index : Int) : Builder :=
  match b.states.getLast? with
  | none => b
  | some last =>
    let cost : Nat := match last.data.choices with | none => 2 | some _ => 1
    { b with
      states := modifyLast (fun p =>
        ⟨{ p.data with choices := some ((p.data.choices.getD []) ++ [⟨text, next_scene_index⟩]) },
          p.fp ++ List.range' b.ctr cost⟩) b.states
      ctr := b.ctr + cost }

/-- The pure content of the story graph held in `self._states`. -/
def graph (b : Builder) : List SceneState := b.states.map (fun p => p.data)

/-- Error type for the build-time validation the specification claims
(`BrokenReferenceError`).  Modelled from the spec: no such class exists
in the source. -/
inductive BuildError where
  | brokenReference
deriving DecidableEq

/-- `VisualNovelBuilder.build` (source: `return self._states`), embedded
in an `Except` signature so it can be compared with the claimed failing
behaviour: the source performs no validation and always returns the
scene list. -/
def buildE (b : Builder) : Except BuildError (List SceneState) := Except.ok (graph b)

/-- `build` as a reference: the Python function returns the very
`self._states` list object, i.e. its address. -/
def buildRef (b : Builder) : Nat := b.statesAddr

/-- Dereference a story-graph reference against the builder that owns
the heap: the only list object in scope is `self._states` at
`statesAddr`. -/
def readGraph (b : Builder) (addr : Nat) : Option (List SceneState) :=
  if addr = b.statesAddr then some (graph b) else none

/-- Does some choice of some scene target an index outside the graph
bounds (below 0 or at or above the scene count)? -/
def hasBrokenChoice (g : List SceneState) : Bool :=
  g.any (fun s => (s.choices.getD []).any
    (fun c => decide (c.next_scene_index < 0) || decide ((g.length : Int) ≤ c.next_scene_index)))

/-- The public builder commands, for quantifying over all builder
command sequences. -/
inductive Cmd where
  | setCharacters (chars : List CharacterDefinition)
  | setBackground (url label : String)
  | setCamera (v : Bool)
  | setVoice (v : Bool)
  | setMotors (v : Bool)
  | setRobot (v : Bool)
  | setBackgroundBlur (n : Int)
  | setStage (url : String)
  | setStageBlur (n : Int)
  | setPath (p : Option String)
  | showCharacter (name pos : String)
  | hideCharacter (name : String)
  | moveCharacter (name pos : String)
  | changeCharacterSprite (name url : String)
  | setCharacterAnimation (name anim : String)
  | setCharacterScale (name : String) (scale : Float)
  | dialogueCmd (speaker text : String)
  | narrationCmd (text : String)
  | requestInput (prompt var : String)
  | sendMotorCommand (id pos : Int)
  | sendMotorCommands (cmds : List (Int × Int))
  | sendRobotPose (pose : RobotPose)
  | playSound (file : String)
  | addChoice (text : String) (idx : Int)

/-- Interpret one builder command. -/
def step (b : Builder) : Cmd → Builder
  | .setCharacters chars => set_characters b chars
  | .setBackground url label => set_background b url label
  | .setCamera v => set_camera b v
  | .setVoice v => set_voice b v
  | .setMotors v => set_motors b v
  | .setRobot v => set_robot b v
  | .setBackgroundBlur n => set_background_blur b n
  | .setStage url => set_stage b url
  | .setStageBlur n => set_stage_blur b n
  | .setPath p => set_path b p
  | .showCharacter name pos => show_character b name pos
  | .hideCharacter name => hide_character b name
  | .moveCharacter name pos => move_character b name pos
  | .changeCharacterSprite name url => change_character_sprite b name url
  | .setCharacterAnimation name anim => set_character_animation b name anim
  | .setCharacterScale name sc => set_character_scale b name sc
  | .dialogueCmd speaker text => dialogue b speaker text
  | .narrationCmd text => narration b text
  | .requestInput prompt var => request_input b prompt var
  | .sendMotorCommand id pos => send_motor_command b id pos
  | .sendMotorCommands cmds => send_motor_commands b cmds
  | .sendRobotPose pose => send_robot_pose b pose
  | .playSound file => play_sound b file
  | .addChoice text idx => add_choice b text idx

/-- Run a builder command sequence from a fresh builder. -/
def run (cs : List Cmd) : Builder := cs.foldl step initBuilder

/-- Python `str.strip()`: drop whitespace from both ends. -/
def pyStrip (t : String) : String :=
  ⟨((t.data.dropWhile Char.isWhitespace).reverse.dropWhile Char.isWhitespace).reverse⟩

/-- Python `str.replace(pat, val)` on character lists: scan left to
right, replacing each non-overlapping occurrence of `pat`.  The fuel
argument only drives structural recursion; any fuel above the input
length is enough.  (The engine only ever calls this with the nonempty
pattern `\x7bname\x7d`, so the empty-pattern corner of `str.replace`
is irrelevant.) -/
def replaceAllF (pat val : List Char) : Nat → List Char → List Char
  | 0, s => s
  | _ + 1, [] => []
  | fuel + 1, c :: cs =>
    if pat.isPrefixOf (c :: cs) then
      val ++ replaceAllF pat val fuel (List.drop pat.length (c :: cs))
    else c :: replaceAllF pat val fuel cs

/-- Python `s.replace(pat, val)` on strings. -/
def pyReplace (s pat val : String) : String :=
  ⟨replaceAllF pat.data val.data (s.data.length + 1) s.data⟩

/-- The variable-substitution loop of `render_scene` (`app.py`):
`for var_name, var_value in variables.items(): text_content =
text_content.replace(..., ...)`, one `str.replace` per variable in
dict order. -/
def substituteVars (t : String) (vars : List (String × String)) : String :=
  vars.foldl (fun acc nv => pyReplace acc ("\x7b" ++ nv.1 ++ "\x7d") nv.2) t

/-- The placeholder pattern of a variable name, as a character list. -/
def patChars (n : String) : List Char := '{' :: (n.data ++ ['}'])

/-- First variable whose placeholder is a prefix of the remaining text. -/
def findPat (vars : List (String × String)) (s : List Char) : Option (String × String) :=
  vars.find? (fun nv => (patChars nv.1).isPrefixOf s)

/-- Simultaneous occurrence substitution, following the specification
text: scanning left to right, every occurrence of `\x7bname\x7d` whose
`name` is a key of `vars` is replaced by that value (emitted verbatim,
not rescanned); all other characters, including placeholders of unknown
names, are left verbatim. -/
def substSimF (vars : List (String × String)) : Nat → List Char → List Char
  | 0, s => s
  | _ + 1, [] => []
  | fuel + 1, c :: cs =>
    match findPat vars (c :: cs) with
    | some nv => nv.2.data ++ substSimF vars fuel (List.drop (patChars nv.1).length (c :: cs))
    | none => c :: substSimF vars fuel cs

/-- String version of `substSimF`. -/
def substSimStr (t : String) (vars : List (String × String)) : String :=
  ⟨substSimF vars (t.data.length + 1) t.data⟩

/-- Python truthiness of the `choices` field: `None` and the empty list
are falsy. -/
def truthyChoices : Option (List Choice) → Bool
  | none => false
  | some l => !l.isEmpty

/-- The meaningful payload of the 19-tuple the `app.py` handlers
return: the substituted dialogue text that `render_scene` embeds in the
speech bubble, the (always empty) dialogue markdown, the scene metadata
line, the four feature flags, the choice list and input request of the
scene, and whether the navigation buttons are interactive
(`nav_enabled = not bool(choices) and not bool(input_req)`).  The
surrounding HTML/CSS assembly and the `gr.update` wrappers carry no
further state and are not modelled. -/
structure RenderDesc where
  text_content : String
  dialogue : String
  metadata : String
  show_camera : Bool
  show_voice : Bool
  show_motors : Bool
  show_robot : Bool
  choices : Option (List Choice)
  input_request : Option InputRequest
  nav_enabled : Bool
deriving DecidableEq

/-- `render_scene` (`app.py`) plus the `nav_enabled` computation every
handler performs on its result. -/
def render_scene (scene : SceneState) (index : Int) (total : Nat)
    (vars : List (String × String)) : RenderDesc where
  text_content := substituteVars (pyStrip scene.text) vars
  dialogue := ""
  metadata :=
    (if scene.background_label ≠ "" then scene.background_label else "Scene")
      ++ " · " ++ toString (index + 1) ++ " / " ++ toString total
  show_camera := scene.show_camera
  show_voice := scene.show_voice
  show_motors := scene.show_motors
  show_robot := scene.show_robot
  choices := scene.choices
  input_request := scene.input_request
  nav_enabled := !(truthyChoices scene.choices) && !(scene.input_request.isSome)

/-- The no-content render of the `if not scenes` branch of
`change_scene`: dialogue "No scenes available.", everything hidden,
navigation buttons interactive. -/
def emptyRender : RenderDesc where
  text_content := ""
  dialogue := "No scenes available."
  metadata := ""
  show_camera := false
  show_voice := false
  show_motors := false
  show_robot := false
  choices := none
  input_request := none
  nav_enabled := true

/-- The `story_state` dict of `app.py`.  `index` is a Python int;
`vars` (the dict `variables` of the source; renamed because
`variables` is a reserved word in Lean) an insertion-ordered dict; `active_paths` a set of strings
(modelled as a list, queried only through membership). -/
structure StoryState where
  scenes : List SceneState
  index : Int
  vars : List (String × String)
  active_paths : List String

/-- `is_scene_accessible` (`app.py`): a scene with no path is always
accessible, otherwise its path must be in `active_paths`. -/
def is_scene_accessible (scene : SceneState) (active_paths : List String) : Bool :=
  match scene.path with
  | none => true
  | some p => active_paths.contains p

/-- Python list subscript `xs[i]`: negative indices count from the end,
anything still out of range raises `IndexError` (here: `none`). -/
def pyGet (xs : List α) (i : Int) : Option α :=
  let j := if i < 0 then i + xs.length else i
  if j < 0 then none else xs.get? j.toNat

/-- Python exceptions the handlers can raise, plus non-termination of
the `while` scan (reachable only with direction 0). -/
inductive PyErr where
  | indexError
  | nonTermination
deriving DecidableEq

/-- Outcome of the `while 0 <= search_index < total` scan. -/
inductive ScanOut where
  | found (i : Nat)
  | stop
  | hang
deriving DecidableEq

/-- The scan loop of `change_scene`: starting at `search`, walk in
steps of `dir` while the index is in range, stopping at the first
accessible scene.  Exhausting the fuel models non-termination of the
Python loop (possible only when `dir = 0` on an inaccessible scene);
`change_scene` supplies fuel `total + 1`, enough for any `dir ≠ 0`. -/
def scanLoop (scenes : List SceneState) (ap : List String) (dir : Int) :
    Nat → Int → ScanOut
  | 0, _ => .hang
  | fuel + 1, search =>
    if search < 0 then .stop
    else
      match scenes.get? search.toNat with
      | none => .stop
      | some sc =>
        if is_scene_accessible sc ap then .found search.toNat
        else scanLoop scenes ap dir fuel (search + dir)

/-- Shared tail of `change_scene`: store the new index and render the
scene at it (Python subscript semantics). -/
def mkNavOk (st : StoryState) (new_index : Int) : Except PyErr (StoryState × RenderDesc) :=
  match pyGet st.scenes new_index with
  | none => Except.error .indexError
  | some sc =>
    Except.ok ({ st with index := new_index },
      render_scene sc new_index st.scenes.length st.vars)

/-- `change_scene` (`app.py`): empty graph short-circuits to the
no-content render; otherwise scan from `index + direction` and keep the
old index if the scan exhausts the graph. -/
def change_scene (st : StoryState) (direction : Int) : Except PyErr (StoryState × RenderDesc) :=
  if st.scenes.isEmpty then Except.ok (st, emptyRender)
  else
    match scanLoop st.scenes st.active_paths direction (st.scenes.length + 1)
        (st.index + direction) with
    | .hang => Except.error .nonTermination
    | .found j => mkNavOk st (j : Int)
    | .stop => mkNavOk st st.index

/-- The path-activation block of `handle_choice`: `if target_scene.path:`
is a Python truthiness test, so an empty-string path is falsy and is NOT
activated; otherwise the path is added to the set. -/
def activatePath (ap : List String) (target : SceneState) : List String :=
  match target.path with
  | some p =>
    if p ≠ "" then (if ap.contains p then ap else ap ++ [p]) else ap
  | none => ap

/-- `handle_choice` (`app.py`).  Note the unguarded
`scenes[story_state["index"]]` before any emptiness check, the
truthiness test `if current_scene.choices and 0 <= choice_index < len`,
and the fallback `change_scene(st, 0)`. -/
def handle_choice (st : StoryState) (choice_index : Int) : Except PyErr (StoryState × RenderDesc) :=
  match pyGet st.scenes st.index with
  | none => Except.error .indexError
  | some current_scene =>
    match current_scene.choices with
    | some cl =>
      if !cl.isEmpty ∧ 0 ≤ choice_index ∧ choice_index < cl.length then
        let chosen := cl.getD choice_index.toNat ⟨"", 0⟩
        match pyGet st.scenes chosen.next_scene_index with
        | none => Except.error .indexError
        | some target =>
          let ap2 := activatePath st.active_paths target
          Except.ok ({ st with index := chosen.next_scene_index, active_paths := ap2 },
            render_scene target chosen.next_scene_index st.scenes.length st.vars)
      else change_scene st 0
    | none => change_scene st 0

/-- The `variables` local of `handle_input`: the store happens exactly
when an input request is present and the submitted value is truthy
(non-empty). -/
def inputVars (st : StoryState) (cur : SceneState) (user_input : String) :
    List (String × String) :=
  match cur.input_request with
  | some ir =>
    if user_input ≠ "" then dictSet st.vars ir.variable_name user_input
    else st.vars
  | none => st.vars

/-- The unconditional advance of `handle_input`:
`min(index + 1, len(scenes) - 1)`. -/
def inputNewIndex (st : StoryState) : Int :=
  min (st.index + 1) ((st.scenes.length : Int) - 1)

/-- `handle_input` (`app.py`): also indexes `scenes[index]` unguarded;
stores the variable via `inputVars`, then always advances to
`inputNewIndex`. -/
def handle_input (st : StoryState) (user_input : String) : Except PyErr (StoryState × RenderDesc) :=
  match pyGet st.scenes st.index with
  | none => Except.error .indexError
  | some current_scene =>
    match pyGet st.scenes (inputNewIndex st) with
    | none => Except.error .indexError
    | some sc =>
      Except.ok
        ({ st with vars := inputVars st current_scene user_input, index := inputNewIndex st },
          render_scene sc (inputNewIndex st) st.scenes.length
            (inputVars st current_scene user_input))

/-- Accessibility of the scene at position `k` (false when `k` is out
of range). -/
def accAt (scenes : List SceneState) (ap : List String) (k : Nat) : Bool :=
  match scenes.get? k with
  | some sc => is_scene_accessible sc ap
  | none => false

/-- Membership of a position in the scan range that starts one step
after `i` in direction `dir` (for `dir ∈ \x7b-1, +1\x7d`). -/
def inScanRange (dir i : Int) (k : Nat) : Prop :=
  if dir = 1 then i < (k : Int) else (k : Int) < i

/-- Is `k` scanned strictly before `j` in direction `dir`? -/
def beforeInScan (dir : Int) (k j : Nat) : Prop :=
  if dir = 1 then k < j else j < k

/-- Index component of a handler result, for concrete evaluations. -/
def idxAfter (r : Except PyErr (StoryState × RenderDesc)) : Option Int :=
  r.toOption.map (fun p => p.1.index)

/-- Active-path component of a handler result, for concrete
evaluations. -/
def pathsAfter (r : Except PyErr (StoryState × RenderDesc)) : Option (List String) :=
  r.toOption.map (fun p => p.1.active_paths)

/-- Index reached by `advance(+1)` immediately followed by
`advance(-1)` on the state the first call returned. -/
def advanceThenRetreat (st : StoryState) : Option Int :=
  match change_scene st 1 with
  | Except.ok (st1, _) => idxAfter (change_scene st1 (-1))
  | Except.error _ => none

/-- A featureless scene used by the concrete evaluations below. -/
def sceneBlank : SceneState where
  background_url := "bg"
  background_label := ""
  characters := []
  speaker := ""
  text := ""
  note := ""

/-- Navigation state over an empty story graph. -/
def emptySt : StoryState := ⟨[], 0, [], []⟩

/-- Command sequence with an out-of-range choice target. -/
def c1cmds : List Cmd := [Cmd.narrationCmd "hi", Cmd.addChoice "go" 5]

/-- A one-scene builder. -/
def c3b1 : Builder := run [Cmd.narrationCmd "a"]

/-- The reference `build()` returns on `c3b1`. -/
def c3ref : Nat := buildRef c3b1

/-- `c3b1` after one further emitted snapshot. -/
def c3b2 : Builder := step c3b1 (Cmd.narrationCmd "b")

/-- A scene carrying one choice that targets index 1. -/
def c6scene0 : SceneState := { sceneBlank with choices := some [⟨"go", 1⟩] }

/-- A scene whose path tag is the empty string. -/
def c6scene1 : SceneState := { sceneBlank with path := some "" }

/-- State whose current scene offers a choice into the empty-path
scene. -/
def c6st : StoryState := ⟨[c6scene0, c6scene1], 0, [], []⟩

/-- A scene gated behind the (inactive) path "accept". -/
def c6wTarget : SceneState := { sceneBlank with path := some "accept" }

/-- State whose current scene offers a choice into the "accept"
scene. -/
def c6wSt : StoryState := ⟨[c6scene0, c6wTarget], 0, [], []⟩

/-- A scene gated behind the (inactive) path "hidden". -/
def hiddenScene : SceneState := { sceneBlank with path := some "hidden" }

/-- Three scenes with an inaccessible one in the middle, positioned at
index 0. -/
def c5st : StoryState := ⟨[sceneBlank, hiddenScene, sceneBlank], 0, [], []⟩

/-- A scene requesting the variable `player_name`. -/
def c7scene : SceneState := { sceneBlank with input_request := some ⟨"Name?", "player_name"⟩ }

/-- Two scenes with an input request on the first, positioned at
index 0. -/
def c7st : StoryState := ⟨[c7scene, sceneBlank], 0, [], []⟩

/-- A scene whose text is the single placeholder of variable `a`. -/
def c8scene : SceneState := { sceneBlank with text := "\x7ba\x7d" }

/-- A variable mapping where the value of `a` is itself the placeholder
of the later variable `b`. -/
def c8vars : List (String × String) := [("a", "\x7bb\x7d"), ("b", "X")]

/-- Two accessible scenes, positioned at the last index. -/
def c9st : StoryState := ⟨[sceneBlank, sceneBlank], 1, [], []⟩

/-- Two accessible scenes, positioned at index 0. -/
def c9wSt : StoryState := ⟨[sceneBlank, sceneBlank], 0, [], []⟩

/-- What a forward scan starting at position `s` must deliver: the
first accessible position at or after `s`, or a guarantee that there is
none; the loop cannot hang for direction +1 with adequate fuel. -/
def ScanSpecPos (scenes : List SceneState) (ap : List String) (s : Nat) : ScanOut → Prop
  | .found j => s ≤ j ∧ accAt scenes ap j = true ∧
      ∀ k, s ≤ k → k < j → accAt scenes ap k = false
  | .stop => ∀ k, s ≤ k → accAt scenes ap k = false
  | .hang => False

/-- What a backward scan starting at position `s` must deliver: the
last accessible position at or below `s`, or a guarantee that there is
none; the loop cannot hang for direction -1 with adequate fuel. -/
def ScanSpecNeg (scenes : List SceneState) (ap : List String) (s : Int) : ScanOut → Prop
  | .found j => (j : Int) ≤ s ∧ accAt scenes ap j = true ∧
      ∀ k : Nat, (k : Int) ≤ s → j < k → accAt scenes ap k = false
  | .stop => ∀ k : Nat, (k : Int) ≤ s → accAt scenes ap k = false
  | .hang => False

/-- All footprint addresses in use lie below the allocation counter. -/
def fpBelow (b : Builder) : Prop :=
  (∀ p ∈ b.states, ∀ a ∈ p.fp, a < b.ctr) ∧ (∀ a ∈ b.tmplFp, a < b.ctr)

/-- The no-aliasing invariant: the footprints of any two emitted
snapshots are disjoint, and every snapshot footprint is disjoint from
the running-template footprint. -/
def noAlias (b : Builder) : Prop :=
  List.Pairwise (fun p q => p.fp.Disjoint q.fp) b.states ∧
    ∀ p ∈ b.states, p.fp.Disjoint b.tmplFp

/-- Full builder heap invariant. -/
def WF (b : Builder) : Prop := fpBelow b ∧ noAlias b

/-! ## Helper lemmas -/

/-- Python indexing with a nonnegative index is plain list lookup. -/
theorem pyGet_nonneg {α : Type} (xs : List α) (i : Int) (h : 0 ≤ i) :
    pyGet xs i = xs.get? i.toNat := by
  unfold pyGet
  have h1 : ¬ i < 0 := by omega
  simp [h1]

/-- No builder command rebinds `self._states`: the list object address
survives every step. -/
theorem statesAddr_step (b : Builder) (c : Cmd) : (step b c).statesAddr = b.statesAddr := by
  cases c <;>
    simp only [step, set_characters, set_background, set_camera, set_voice, set_motors,
      set_robot, set_background_blur, set_stage, set_stage_blur, set_path, show_character,
      hide_character, move_character, change_character_sprite, set_character_animation,
      set_character_scale, dialogue, narration, request_input, send_motor_command,
      send_motor_commands, send_robot_pose, play_sound, add_choice, pushState]
  case addChoice t i =>
    cases h : b.states.getLast? <;> simp [h]

/-- The states-list address of any run is the address allocated at
`__init__`. -/
theorem statesAddr_run_aux (cs : List Cmd) : ∀ b : Builder, (cs.foldl step b).statesAddr = b.statesAddr := by
  induction cs with
  | nil => intro b; rfl
  | cons c cs ih => intro b; rw [List.foldl_cons, ih, statesAddr_step]

/-- Any run keeps `statesAddr = 0`. -/
theorem statesAddr_run (cs : List Cmd) : (run cs).statesAddr = 0 := by
  rw [run, statesAddr_run_aux]; rfl

/-! ## C10 -/

/-- C10: calling `add_choice` when no snapshot has yet been emitted (the
scene sequence is empty) raises no error, emits no snapshot, and leaves
the builder completely unchanged. -/
theorem add_choice_on_empty_builder_noop (b : Builder) (t : String) (i : Int)
    (h : b.states = []) : add_choice b t i = b := by
  unfold add_choice
  rw [h]
  rfl

/-- Witness for `add_choice_on_empty_builder_noop` at the fresh
builder. -/
theorem add_choice_on_empty_builder_noop_witness :
    initBuilder.states = [] ∧ add_choice initBuilder "x" 3 = initBuilder :=
  ⟨rfl, add_choice_on_empty_builder_noop initBuilder "x" 3 rfl⟩

/-! ## C1 -/

/-- C1 counterexample: after `narration` followed by `add_choice` with
the out-of-range target 5, the graph contains a broken choice, yet
`build()` returns the graph normally instead of failing with
`BrokenReferenceError` (the source performs no validation at all, and no
such error class even exists in the repository). -/
theorem build_skips_validation_cex :
    hasBrokenChoice (graph (run c1cmds)) = true ∧
      buildE (run c1cmds) = Except.ok (graph (run c1cmds)) :=
  ⟨rfl, rfl⟩

/-- C1 (amended): `build()` performs no bounds validation; even when
some choice targets an index outside the story graph it returns the
scene sequence as-is and never raises. -/
theorem build_returns_graph_despite_broken_choice (b : Builder)
    (_h : hasBrokenChoice (graph b) = true) : buildE b = Except.ok (graph b) := rfl

/-- Witness for `build_returns_graph_despite_broken_choice`. -/
theorem build_returns_graph_despite_broken_choice_witness :
    hasBrokenChoice (graph (run c1cmds)) = true ∧
      buildE (run c1cmds) = Except.ok (graph (run c1cmds)) :=
  ⟨rfl, build_returns_graph_despite_broken_choice (run c1cmds) rfl⟩

/-! ## C3 -/

/-- C3 counterexample: `build()` returns the internal `_states` list by
reference.  On a one-scene builder the returned graph has one scene;
after one more emitted snapshot, reading the very same reference yields
two scenes, so the previously returned Story Graph did not stay
unchanged. -/
theorem build_alias_mutation_cex :
    (readGraph c3b1 c3ref).map List.length = some 1 ∧
      (readGraph c3b2 c3ref).map List.length = some 2 :=
  ⟨rfl, rfl⟩

/-- C3 (amended): `build()` returns a reference to the builder-owned
scene list, not a copy; after any further commands, dereferencing the
returned Story Graph yields the builder-current scene sequence. -/
theorem build_result_aliases_builder_list (cs ext : List Cmd) :
    readGraph (run (cs ++ ext)) (buildRef (run cs)) = some (graph (run (cs ++ ext))) := by
  simp [readGraph, buildRef, statesAddr_run]

/-! ## C4 -/

/-- C4 (code-bug exhibit): on the empty story graph, `change_scene`
degrades to the no-content render in every direction, but
`handle_choice` and `handle_input` evaluate `scenes[story_state["index"]]`
before any emptiness check and raise `IndexError`, contradicting the
required degrade-without-failing behaviour. -/
theorem empty_graph_choice_input_raise :
    change_scene emptySt 1 = Except.ok (emptySt, emptyRender) ∧
      change_scene emptySt (-1) = Except.ok (emptySt, emptyRender) ∧
      change_scene emptySt 0 = Except.ok (emptySt, emptyRender) ∧
      handle_choice emptySt 0 = Except.error PyErr.indexError ∧
      handle_input emptySt "Alice" = Except.error PyErr.indexError :=
  ⟨rfl, rfl, rfl, rfl, rfl⟩

/-! ## C8 -/

/-- C8 counterexample: with variables `a -> "\x7bb\x7d"` and `b -> "X"`
(in that insertion order) and scene text `"\x7ba\x7d"`, the rendered
text is `"X"`: the occurrence of the placeholder of `a` was not replaced
by the value of `a` verbatim, because the sequential `str.replace` loop
re-substitutes earlier results, unlike the simultaneous
occurrence-replacement the claim describes (which yields `"\x7bb\x7d"`). -/
theorem substitution_not_simultaneous_cex :
    (render_scene c8scene 0 1 c8vars).text_content = "X" ∧
      substSimStr (pyStrip c8scene.text) c8vars = "\x7bb\x7d" ∧
      ("X" : String) ≠ "\x7bb\x7d" :=
  ⟨by decide, by decide, by decide⟩

/-- Singleton variable maps make `findPat` a plain prefix test. -/
theorem findPat_singleton (n v : String) (s : List Char) :
    findPat [(n, v)] s = if (patChars n).isPrefixOf s then some (n, v) else none := by
  cases h : (patChars n).isPrefixOf s <;> simp [findPat, List.find?, h]

/-- With a single variable, simultaneous substitution and the
`str.replace` scan coincide, fuel for fuel. -/
theorem substSimF_singleton (n v : String) :
    ∀ fuel s, substSimF [(n, v)] fuel s = replaceAllF (patChars n) v.data fuel s := by
  intro fuel
  induction fuel with
  | zero => intro s; rfl
  | succ f ih =>
    intro s
    cases s with
    | nil => rfl
    | cons c cs =>
      simp only [substSimF, replaceAllF, findPat_singleton]
      cases h : (patChars n).isPrefixOf (c :: cs) <;> simp [h, ih]

/-- The character data of the interpolated pattern string. -/
theorem data_pattern (n : String) : ("\x7b" ++ n ++ "\x7d").data = patChars n := by
  simp [patChars, String.data_append]

/-- C8 (amended): substitution is sequential, one `str.replace` per
variable in mapping order; for a single-variable mapping (where no
cross-variable interaction is possible) it coincides exactly with the
claimed behaviour: every occurrence of the placeholder is replaced by
the value and all other text, including unknown placeholders, is left
verbatim, with no error. -/
theorem substitute_single_variable (t n v : String) :
    substituteVars t [(n, v)] = substSimStr t [(n, v)] := by
  unfold substituteVars substSimStr pyReplace
  simp only [List.foldl]
  rw [data_pattern, substSimF_singleton]

/-- Out-of-range positions are never accessible. -/
theorem accAt_of_out_of_range (scenes : List SceneState) (ap : List String) (k : Nat)
    (h : scenes.length ≤ k) : accAt scenes ap k = false := by
  unfold accAt
  rw [List.get?_eq_none.mpr h]

/-- Accessibility at a position resolved by a lookup. -/
theorem accAt_eq_of_get? (scenes : List SceneState) (ap : List String) (k : Nat)
    (sc : SceneState) (hg : scenes.get? k = some sc) :
    accAt scenes ap k = is_scene_accessible sc ap := by
  simp only [accAt]
  rw [hg]

/-- The forward scan (direction +1) satisfies its specification
whenever the fuel covers the distance to the upper end of the graph. -/
theorem scanLoop_pos_spec (scenes : List SceneState) (ap : List String) :
    ∀ (fuel s : Nat), scenes.length - s + 1 ≤ fuel →
      ScanSpecPos scenes ap s (scanLoop scenes ap 1 fuel (s : Int)) := by
  intro fuel
  induction fuel with
  | zero => intro s hs; omega
  | succ f ih =>
    intro s hs
    rw [scanLoop]
    have hnn : ¬ ((s : Int) < 0) := by omega
    simp only [hnn, if_false, Int.toNat_natCast]
    cases hg : scenes.get? s with
    | none =>
      have hlen : scenes.length ≤ s := List.get?_eq_none.mp hg
      simp only [ScanSpecPos]
      intro k hk
      exact accAt_of_out_of_range scenes ap k (by omega)
    | some sc =>
      cases ha : is_scene_accessible sc ap with
      | true =>
        simp only [ha, if_true, ScanSpecPos]
        refine ⟨Nat.le_refl s, ?_, ?_⟩
        · rw [accAt_eq_of_get? scenes ap s sc hg]; exact ha
        · intro k h1 h2; omega
      | false =>
        simp only [ha, if_false]
        have hlen : s < scenes.length := by
          by_contra hc
          rw [List.get?_eq_none.mpr (by omega)] at hg
          exact Option.noConfusion hg
        have hcast : (s : Int) + 1 = ((s + 1 : Nat) : Int) := by push_cast; ring
        rw [hcast]
        have hacc_s : accAt scenes ap s = false := by
          rw [accAt_eq_of_get? scenes ap s sc hg]; exact ha
        have IH := ih (s + 1) (by omega)
        rcases hr : scanLoop scenes ap 1 f ((s + 1 : Nat) : Int) with j | _ | _ <;>
          rw [hr] at IH <;> simp only [ScanSpecPos] at IH ⊢
        · obtain ⟨h1, h2, h3⟩ := IH
          refine ⟨by omega, h2, ?_⟩
          intro k hk1 hk2
          rcases Nat.eq_or_lt_of_le hk1 with heq | hlt
          · rw [← heq]; exact hacc_s
          · exact h3 k (by omega) hk2
        · intro k hk
          rcases Nat.eq_or_lt_of_le hk with heq | hlt
          · rw [← heq]; exact hacc_s
          · exact IH k (by omega)

/-- The backward scan (direction -1) satisfies its specification
whenever the fuel covers the distance to the lower end of the graph. -/
theorem scanLoop_neg_spec (scenes : List SceneState) (ap : List String) :
    ∀ (fuel : Nat) (s : Int), s < (scenes.length : Int) → s + 1 < (fuel : Int) → 0 < fuel →
      ScanSpecNeg scenes ap s (scanLoop scenes ap (-1) fuel s) := by
  intro fuel
  induction fuel with
  | zero => intro s h1 h2 h3; omega
  | succ f ih =>
    intro s h1 h2 h3
    rw [scanLoop]
    by_cases hneg : s < 0
    · simp only [hneg, if_true, ScanSpecNeg]
      intro k hk
      exfalso; omega
    · simp only [if_neg hneg]
      cases hg : scenes.get? s.toNat with
      | none =>
        have := List.get?_eq_none.mp hg
        exfalso; omega
      | some sc =>
        cases ha : is_scene_accessible sc ap with
        | true =>
          simp only [ha, if_true, ScanSpecNeg]
          refine ⟨by omega, ?_, ?_⟩
          · rw [accAt_eq_of_get? scenes ap s.toNat sc hg]; exact ha
          · intro k hk1 hk2; exfalso; omega
        | false =>
          simp only [ha, if_false]
          have hs1 : s + (-1) = s - 1 := by ring
          rw [hs1]
          have hacc_s : accAt scenes ap s.toNat = false := by
            rw [accAt_eq_of_get? scenes ap s.toNat sc hg]; exact ha
          have IH := ih (s - 1) (by omega) (by omega) (by omega)
          rcases hr : scanLoop scenes ap (-1) f (s - 1) with j | _ | _ <;>
            rw [hr] at IH <;> simp only [ScanSpecNeg] at IH ⊢
          · obtain ⟨hj1, hj2, hj3⟩ := IH
            refine ⟨by omega, hj2, ?_⟩
            intro k hk1 hk2
            by_cases hks : (k : Int) ≤ s - 1
            · exact hj3 k hks hk2
            · have hk : k = s.toNat := by omega
              rw [hk]; exact hacc_s
          · intro k hk
            by_cases hks : (k : Int) ≤ s - 1
            · exact IH k hks
            · have hk2 : k = s.toNat := by omega
              rw [hk2]; exact hacc_s

/-- In-range positions can be looked up. -/
theorem get?_is_some_of_lt (scenes : List SceneState) (k : Nat)
    (h : k < scenes.length) : ∃ sc, scenes.get? k = some sc := by
  cases hg : scenes.get? k with
  | none => have := List.get?_eq_none.mp hg; omega
  | some sc => exact ⟨sc, rfl⟩

/-- A nonempty-graph precondition in `isEmpty` form. -/
theorem isEmpty_false_of_index (st : StoryState)
    (h0 : 0 ≤ st.index) (hlt : st.index < (st.scenes.length : Int)) :
    st.scenes.isEmpty = false := by
  cases hsc : st.scenes with
  | nil => rw [hsc] at hlt; simp at hlt; omega
  | cons a l => rfl

/-- What `change_scene st 1` does from a valid index: either it moves
to the first accessible position strictly above the current index, or
no position above is accessible and the index is unchanged. -/
theorem change_scene_pos_cases (st : StoryState)
    (h0 : 0 ≤ st.index) (hlt : st.index < (st.scenes.length : Int)) :
    (∃ j : Nat, st.index < (j : Int) ∧ accAt st.scenes st.active_paths j = true ∧
        (∀ k : Nat, st.index < (k : Int) → k < j → accAt st.scenes st.active_paths k = false) ∧
        ∃ rd, change_scene st 1 = Except.ok ({ st with index := (j : Int) }, rd))
      ∨ ((∀ k : Nat, st.index < (k : Int) → accAt st.scenes st.active_paths k = false) ∧
        ∃ rd, change_scene st 1 = Except.ok (st, rd)) := by
  have hne := isEmpty_false_of_index st h0 hlt
  unfold change_scene
  simp only [hne, Bool.false_eq_true, if_false]
  have hcast : st.index + 1 = ((st.index.toNat + 1 : Nat) : Int) := by omega
  rw [hcast]
  have H := scanLoop_pos_spec st.scenes st.active_paths (st.scenes.length + 1)
    (st.index.toNat + 1) (by omega)
  rcases hr : scanLoop st.scenes st.active_paths 1 (st.scenes.length + 1)
      ((st.index.toNat + 1 : Nat) : Int) with j | _ | _ <;>
    rw [hr] at H <;> simp only [ScanSpecPos] at H
  · left
    obtain ⟨hj1, hj2, hj3⟩ := H
    have hjlen : j < st.scenes.length := by
      by_contra hc
      rw [accAt_of_out_of_range st.scenes st.active_paths j (by omega)] at hj2
      exact Bool.noConfusion hj2
    refine ⟨j, by omega, hj2, ?_, ?_⟩
    · intro k hk1 hk2; exact hj3 k (by omega) hk2
    · obtain ⟨sc, hsc⟩ := get?_is_some_of_lt st.scenes j hjlen
      have hpg : pyGet st.scenes (j : Int) = some sc := by
        rw [pyGet_nonneg st.scenes (j : Int) (by omega), Int.toNat_natCast]; exact hsc
      refine ⟨render_scene sc (j : Int) st.scenes.length st.vars, ?_⟩
      simp [mkNavOk, hpg]
  · right
    constructor
    · intro k hk; exact H k (by omega)
    · obtain ⟨sc, hsc⟩ := get?_is_some_of_lt st.scenes st.index.toNat (by omega)
      have hpg : pyGet st.scenes st.index = some sc := by
        rw [pyGet_nonneg st.scenes st.index h0]; exact hsc
      refine ⟨render_scene sc st.index st.scenes.length st.vars, ?_⟩
      simp [mkNavOk, hpg]

/-- What `change_scene st (-1)` does from a valid index: either it
moves to the last accessible position strictly below the current index,
or no position below is accessible and the index is unchanged. -/
theorem change_scene_neg_cases (st : StoryState)
    (h0 : 0 ≤ st.index) (hlt : st.index < (st.scenes.length : Int)) :
    (∃ j : Nat, (j : Int) < st.index ∧ accAt st.scenes st.active_paths j = true ∧
        (∀ k : Nat, (k : Int) < st.index → j < k → accAt st.scenes st.active_paths k = false) ∧
        ∃ rd, change_scene st (-1) = Except.ok ({ st with index := (j : Int) }, rd))
      ∨ ((∀ k : Nat, (k : Int) < st.index → accAt st.scenes st.active_paths k = false) ∧
        ∃ rd, change_scene st (-1) = Except.ok (st, rd)) := by
  have hne := isEmpty_false_of_index st h0 hlt
  unfold change_scene
  simp only [hne, Bool.false_eq_true, if_false]
  have H := scanLoop_neg_spec st.scenes st.active_paths (st.scenes.length + 1)
    (st.index + -1) (by omega) (by omega) (by omega)
  rcases hr : scanLoop st.scenes st.active_paths (-1) (st.scenes.length + 1)
      (st.index + -1) with j | _ | _ <;>
    rw [hr] at H <;> simp only [ScanSpecNeg] at H
  · left
    obtain ⟨hj1, hj2, hj3⟩ := H
    have hjlen : j < st.scenes.length := by
      by_contra hc
      rw [accAt_of_out_of_range st.scenes st.active_paths j (by omega)] at hj2
      exact Bool.noConfusion hj2
    refine ⟨j, by omega, hj2, ?_, ?_⟩
    · intro k hk1 hk2; exact hj3 k (by omega) hk2
    · obtain ⟨sc, hsc⟩ := get?_is_some_of_lt st.scenes j hjlen
      have hpg : pyGet st.scenes (j : Int) = some sc := by
        rw [pyGet_nonneg st.scenes (j : Int) (by omega), Int.toNat_natCast]; exact hsc
      refine ⟨render_scene sc (j : Int) st.scenes.length st.vars, ?_⟩
      simp [mkNavOk, hpg]
  · right
    constructor
    · intro k hk; exact H k (by omega)
    · obtain ⟨sc, hsc⟩ := get?_is_some_of_lt st.scenes st.index.toNat (by omega)
      have hpg : pyGet st.scenes st.index = some sc := by
        rw [pyGet_nonneg st.scenes st.index h0]; exact hsc
      refine ⟨render_scene sc st.index st.scenes.length st.vars, ?_⟩
      simp [mkNavOk, hpg]

/-- `change_scene st 0` on an accessible current scene is a pure
re-render: same state, rendering the current scene. -/
theorem change_scene_zero_rerender (st : StoryState) (cur : SceneState)
    (h0 : 0 ≤ st.index)
    (hcur : st.scenes.get? st.index.toNat = some cur)
    (hacc : is_scene_accessible cur st.active_paths = true) :
    change_scene st 0 = Except.ok (st, render_scene cur st.index st.scenes.length st.vars) := by
  have hlt : st.index < (st.scenes.length : Int) := by
    have h1 : st.index.toNat < st.scenes.length := by
      by_contra hc
      rw [List.get?_eq_none.mpr (by omega)] at hcur
      exact Option.noConfusion hcur
    omega
  have hne := isEmpty_false_of_index st h0 hlt
  unfold change_scene
  simp only [hne, Bool.false_eq_true, if_false]
  have h1 : st.index + 0 = st.index := by ring
  rw [h1, scanLoop]
  simp only [if_neg (by omega : ¬ st.index < 0), hcur, hacc, if_true]
  have hpg : pyGet st.scenes ((st.index.toNat : Nat) : Int) = some cur := by
    rw [pyGet_nonneg st.scenes _ (by omega), Int.toNat_natCast]
    exact hcur
  simp only [mkNavOk, hpg]
  have ht : ((st.index.toNat : Nat) : Int) = st.index := Int.toNat_of_nonneg h0
  rw [ht]

/-! ## C5 -/

/-- C5: for a nonempty graph and a valid current index, `advance` with
direction +1 or -1 moves to the first accessible position reached by
scanning from `index + direction` in that direction (a scene is
accessible iff its path is absent or active), and leaves the index
unchanged when the scan exhausts the graph; scenes, variables and
active paths are untouched either way. -/
theorem advance_scans_for_accessible (st : StoryState) (dir : Int)
    (hdir : dir = 1 ∨ dir = -1)
    (h0 : 0 ≤ st.index) (hlt : st.index < (st.scenes.length : Int)) :
    ∃ st2 rd, change_scene st dir = Except.ok (st2, rd) ∧
      st2.scenes = st.scenes ∧ st2.vars = st.vars ∧ st2.active_paths = st.active_paths ∧
      ((∃ j : Nat, st2.index = (j : Int) ∧ inScanRange dir st.index j ∧
          accAt st.scenes st.active_paths j = true ∧
          ∀ k : Nat, inScanRange dir st.index k → beforeInScan dir k j →
            accAt st.scenes st.active_paths k = false)
        ∨ (st2.index = st.index ∧
            ∀ k : Nat, inScanRange dir st.index k →
              accAt st.scenes st.active_paths k = false)) := by
  rcases hdir with hdir | hdir <;> subst hdir
  · rcases change_scene_pos_cases st h0 hlt with
      ⟨j, hj1, hj2, hj3, rd, hok⟩ | ⟨hnone, rd, hok⟩
    · refine ⟨_, rd, hok, rfl, rfl, rfl, Or.inl ⟨j, rfl, ?_, hj2, ?_⟩⟩
      · simp only [inScanRange, if_pos rfl]; exact hj1
      · intro k hk1 hk2
        simp only [inScanRange, if_pos rfl] at hk1
        simp only [beforeInScan, if_pos rfl] at hk2
        exact hj3 k hk1 hk2
    · refine ⟨st, rd, hok, rfl, rfl, rfl, Or.inr ⟨rfl, ?_⟩⟩
      intro k hk
      simp only [inScanRange, if_pos rfl] at hk
      exact hnone k hk
  · rcases change_scene_neg_cases st h0 hlt with
      ⟨j, hj1, hj2, hj3, rd, hok⟩ | ⟨hnone, rd, hok⟩
    · refine ⟨_, rd, hok, rfl, rfl, rfl, Or.inl ⟨j, rfl, ?_, hj2, ?_⟩⟩
      · simp only [inScanRange, if_neg (by omega : ¬ (-1 : Int) = 1)]; exact hj1
      · intro k hk1 hk2
        simp only [inScanRange, if_neg (by omega : ¬ (-1 : Int) = 1)] at hk1
        simp only [beforeInScan, if_neg (by omega : ¬ (-1 : Int) = 1)] at hk2
        exact hj3 k hk1 hk2
    · refine ⟨st, rd, hok, rfl, rfl, rfl, Or.inr ⟨rfl, ?_⟩⟩
      intro k hk
      simp only [inScanRange, if_neg (by omega : ¬ (-1 : Int) = 1)] at hk
      exact hnone k hk

/-- Witness for `advance_scans_for_accessible`: on a three-scene graph
whose middle scene is gated behind an inactive path, advancing from
index 0 lands on an accessible scene strictly above 0 while every scene
scanned before it was inaccessible (concretely: index 2, skipping 1). -/
theorem advance_scans_for_accessible_witness :
    ((1 : Int) = 1 ∨ (1 : Int) = -1) ∧ (0 : Int) ≤ c5st.index ∧
      c5st.index < (c5st.scenes.length : Int) ∧
      (∃ st2 rd, change_scene c5st 1 = Except.ok (st2, rd) ∧
        st2.scenes = c5st.scenes ∧ st2.vars = c5st.vars ∧
        st2.active_paths = c5st.active_paths ∧
        ((∃ j : Nat, st2.index = (j : Int) ∧ inScanRange 1 c5st.index j ∧
            accAt c5st.scenes c5st.active_paths j = true ∧
            ∀ k : Nat, inScanRange 1 c5st.index k → beforeInScan 1 k j →
              accAt c5st.scenes c5st.active_paths k = false)
          ∨ (st2.index = c5st.index ∧
              ∀ k : Nat, inScanRange 1 c5st.index k →
                accAt c5st.scenes c5st.active_paths k = false))) :=
  ⟨Or.inl rfl, by decide, by decide,
    advance_scans_for_accessible c5st 1 (Or.inl rfl) (by decide) (by decide)⟩

/-- Accessible positions are in range. -/
theorem lt_length_of_accAt (scenes : List SceneState) (ap : List String) (k : Nat)
    (h : accAt scenes ap k = true) : k < scenes.length := by
  by_contra hc
  rw [accAt_of_out_of_range scenes ap k (by omega)] at h
  exact Bool.noConfusion h

/-! ## C9 -/

/-- C9 counterexample: on a two-scene graph with both scenes accessible
and the current index 1 (top boundary), `advance(+1)` is a no-op but the
following `advance(-1)` moves to index 0, so the composition neither
returns to the original index nor leaves it unchanged. -/
theorem advance_retreat_boundary_cex :
    c9st.index = 1 ∧ accAt c9st.scenes c9st.active_paths 1 = true ∧
      advanceThenRetreat c9st = some 0 ∧ some (0 : Int) ≠ some (1 : Int) :=
  ⟨rfl, rfl, rfl, by decide⟩

/-- C9 (amended): from an accessible valid index, whenever
`advance(+1)` actually moves, the following `advance(-1)` returns to the
original index; when `advance(+1)` is a no-op (nothing accessible
above), the composition is just a single `advance(-1)`, which may move
to a lower accessible index. -/
theorem advance_retreat_symmetry (st : StoryState)
    (h0 : 0 ≤ st.index) (hlt : st.index < (st.scenes.length : Int))
    (hacc : accAt st.scenes st.active_paths st.index.toNat = true)
    (st1 : StoryState) (rd1 : RenderDesc)
    (hstep : change_scene st 1 = Except.ok (st1, rd1))
    (hmoved : st1.index ≠ st.index) :
    ∃ st2 rd2, change_scene st1 (-1) = Except.ok (st2, rd2) ∧ st2.index = st.index := by
  rcases change_scene_pos_cases st h0 hlt with
    ⟨j, hj1, hj2, hj3, rd, hok⟩ | ⟨hnone, rd, hok⟩
  · rw [hok] at hstep
    injection hstep with h
    have hst1 : st1 = { st with index := (j : Int) } := (congrArg Prod.fst h).symm
    subst hst1
    have hjlen : j < st.scenes.length := lt_length_of_accAt st.scenes st.active_paths j hj2
    rcases change_scene_neg_cases { st with index := (j : Int) }
        (Int.natCast_nonneg j)
        (by show (j : Int) < (st.scenes.length : Int); exact_mod_cast hjlen) with
      ⟨j2, hk1, hk2, hk3, rd2, hok2⟩ | ⟨hnone2, rd2, hok2⟩
    · have hk1' : (j2 : Int) < (j : Int) := hk1
      have hk2' : accAt st.scenes st.active_paths j2 = true := hk2
      have hk3' : ∀ k : Nat, (k : Int) < (j : Int) → j2 < k →
          accAt st.scenes st.active_paths k = false := hk3
      have hj2idx : j2 = st.index.toNat := by
        by_contra hnej
        rcases Nat.lt_or_ge j2 st.index.toNat with hlt2 | hge
        · have hf : accAt st.scenes st.active_paths st.index.toNat = false :=
            hk3' st.index.toNat (by omega) (by omega)
          rw [hf] at hacc
          exact Bool.noConfusion hacc
        · have hgt : st.index.toNat < j2 := by omega
          have hf := hj3 j2 (by omega) (by omega)
          rw [hf] at hk2'
          exact Bool.noConfusion hk2'
      refine ⟨{ st with index := ((j2 : Nat) : Int) }, rd2, hok2, ?_⟩
      show ((j2 : Nat) : Int) = st.index
      rw [hj2idx]
      exact Int.toNat_of_nonneg h0
    · exfalso
      have hnone2' : ∀ k : Nat, (k : Int) < (j : Int) →
          accAt st.scenes st.active_paths k = false := hnone2
      have hf : accAt st.scenes st.active_paths st.index.toNat = false :=
        hnone2' st.index.toNat (by omega)
      rw [hf] at hacc
      exact Bool.noConfusion hacc
  · exfalso
    rw [hok] at hstep
    injection hstep with h
    have hst : st = st1 := congrArg Prod.fst h
    exact hmoved (by rw [← hst])

/-- Witness for `advance_retreat_symmetry`: two accessible scenes,
advancing from index 0 moves to 1, retreating returns to 0. -/
theorem advance_retreat_symmetry_witness :
    accAt c9wSt.scenes c9wSt.active_paths c9wSt.index.toNat = true ∧
      (∃ st2 rd2, change_scene { c9wSt with index := (1 : Int) } (-1) = Except.ok (st2, rd2) ∧
        st2.index = c9wSt.index) :=
  ⟨rfl, advance_retreat_symmetry c9wSt (by decide) (by decide) rfl
    { c9wSt with index := (1 : Int) } (render_scene sceneBlank 1 2 []) rfl (by decide)⟩


/-! ## C6 -/

/-- Unfolded form of `activatePath` at a known path. -/
theorem activatePath_some (ap : List String) (target : SceneState) (p : String)
    (hp : target.path = some p) :
    activatePath ap target =
      if p ≠ "" then (if ap.contains p then ap else ap ++ [p]) else ap := by
  unfold activatePath
  rw [hp]

/-- Unfolded form of `activatePath` at an absent path. -/
theorem activatePath_none (ap : List String) (target : SceneState)
    (hp : target.path = none) : activatePath ap target = ap := by
  unfold activatePath
  rw [hp]

/-- Path activation never removes paths. -/
theorem subset_activatePath (ap : List String) (target : SceneState) :
    ap ⊆ activatePath ap target := by
  cases hp : target.path with
  | none =>
    rw [activatePath_none ap target hp]
    exact List.Subset.refl _
  | some p =>
    rw [activatePath_some ap target p hp]
    split_ifs with h1 h2
    · exact List.Subset.refl _
    · exact List.subset_append_left _ _
    · exact List.Subset.refl _

/-- A nonempty target path ends up activated. -/
theorem mem_activatePath (ap : List String) (target : SceneState) (p : String)
    (hp : target.path = some p) (hne : p ≠ "") : p ∈ activatePath ap target := by
  rw [activatePath_some ap target p hp, if_pos hne]
  split_ifs with h1
  · exact List.elem_iff.mp h1
  · exact List.mem_append_right _ (List.mem_singleton.mpr rfl)

/-- `change_scene` never touches scenes, variables or active paths. -/
theorem change_scene_frame (st : StoryState) (d : Int) (st2 : StoryState) (rd : RenderDesc)
    (h : change_scene st d = Except.ok (st2, rd)) :
    st2.scenes = st.scenes ∧ st2.vars = st.vars ∧ st2.active_paths = st.active_paths := by
  unfold change_scene mkNavOk at h
  repeat' split at h
  all_goals
    first
      | exact Except.noConfusion h
      | (injection h with h'
         injection h' with h1 h2
         rw [← h1]
         exact ⟨rfl, rfl, rfl⟩)

/-- `handle_input` never touches scenes or active paths. -/
theorem handle_input_paths_frame (st : StoryState) (v : String) (st2 : StoryState)
    (rd : RenderDesc) (h : handle_input st v = Except.ok (st2, rd)) :
    st2.scenes = st.scenes ∧ st2.active_paths = st.active_paths := by
  unfold handle_input at h
  repeat' split at h
  all_goals
    first
      | exact Except.noConfusion h
      | (injection h with h'
         injection h' with h1 h2
         rw [← h1]
         exact ⟨rfl, rfl⟩)


/-- C6 counterexample: the selected choice targets a scene whose path is
the non-absent empty string; `handle_choice` moves to it but does NOT
add that path to activePaths (Python truthiness of `if target_scene.path:`),
although the claim requires every non-absent path to be activated. -/
theorem select_choice_empty_path_cex :
    (c6st.scenes.get? 1).bind SceneState.path = some "" ∧
      idxAfter (handle_choice c6st 0) = some 1 ∧
      pathsAfter (handle_choice c6st 0) = some [] :=
  ⟨rfl, rfl, rfl⟩

/-- C6 (amended): from a valid index, (i) if the current scene has a
nonempty choice list, the choice index is in range and the target index
is in bounds, `selectChoice` moves to the target index and activates the
target path exactly when it is non-absent AND nonempty (an empty-string
path is not activated), never removing paths and leaving variables
untouched; (ii) if the scene has no choices, an empty choice list, or
the index is out of range, and the current scene is accessible, it
degrades to a no-op re-render of the current scene; (iii) and (iv):
neither `advance` nor `submitInput` ever changes activePaths, so no
operation ever removes a path. -/
theorem select_choice_spec (st : StoryState) (ci : Int) (cur : SceneState)
    (h0 : 0 ≤ st.index)
    (hcur : st.scenes.get? st.index.toNat = some cur) :
    (∀ cl c, cur.choices = some cl → 0 ≤ ci → cl.get? ci.toNat = some c →
        0 ≤ c.next_scene_index → c.next_scene_index < (st.scenes.length : Int) →
        ∃ target rd, st.scenes.get? c.next_scene_index.toNat = some target ∧
          handle_choice st ci = Except.ok
            ({ st with index := c.next_scene_index,
                       active_paths := activatePath st.active_paths target }, rd) ∧
          st.active_paths ⊆ activatePath st.active_paths target ∧
          (∀ p, target.path = some p → p ≠ "" → p ∈ activatePath st.active_paths target)) ∧
    ((cur.choices = none ∨ cur.choices = some [] ∨ ci < 0 ∨
        ((cur.choices.getD []).length : Int) ≤ ci) →
      is_scene_accessible cur st.active_paths = true →
      handle_choice st ci =
        Except.ok (st, render_scene cur st.index st.scenes.length st.vars)) ∧
    (∀ d st2 rd, change_scene st d = Except.ok (st2, rd) →
      st2.active_paths = st.active_paths) ∧
    (∀ v st2 rd, handle_input st v = Except.ok (st2, rd) →
      st2.active_paths = st.active_paths) := by
  have hpg : pyGet st.scenes st.index = some cur := by
    rw [pyGet_nonneg st.scenes st.index h0]; exact hcur
  refine ⟨?_, ?_, ?_, ?_⟩
  · intro cl c hcl hci hget htgt0 htgtlt
    have hlen : ci.toNat < cl.length := by
      by_contra hc
      rw [List.get?_eq_none.mpr (by omega)] at hget
      exact Option.noConfusion hget
    have hchosen : cl.getD ci.toNat ⟨"", 0⟩ = c := by
      show (cl.get? ci.toNat).getD _ = c
      rw [hget]
      rfl
    have hcond : (!cl.isEmpty) = true ∧ 0 ≤ ci ∧ ci < (cl.length : Int) := by
      refine ⟨?_, hci, by omega⟩
      cases cl with
      | nil => simp at hlen
      | cons a l => rfl
    obtain ⟨target, htg⟩ := get?_is_some_of_lt st.scenes c.next_scene_index.toNat (by omega)
    have hpg2 : pyGet st.scenes c.next_scene_index = some target := by
      rw [pyGet_nonneg st.scenes _ htgt0]; exact htg
    refine ⟨target, render_scene target c.next_scene_index st.scenes.length st.vars,
      htg, ?_, subset_activatePath st.active_paths target,
      fun p hp hne => mem_activatePath st.active_paths target p hp hne⟩
    simp only [handle_choice, hpg, hcl, hchosen, hpg2, if_pos hcond]
  · intro hfb hacc2
    simp only [handle_choice, hpg]
    cases hc : cur.choices with
    | none => exact change_scene_zero_rerender st cur h0 hcur hacc2
    | some cl =>
      have hcond : ¬((!cl.isEmpty) = true ∧ 0 ≤ ci ∧ ci < (cl.length : Int)) := by
        rcases hfb with h | h | h | h
        · rw [hc] at h; exact Option.noConfusion h
        · rw [hc] at h
          injection h with h'
          subst h'
          intro hx
          exact Bool.noConfusion hx.1
        · intro hx
          have := hx.2.1
          omega
        · rw [hc] at h
          simp only [Option.getD_some] at h
          intro hx
          have := hx.2.2
          omega
      simp only [if_neg hcond]
      exact change_scene_zero_rerender st cur h0 hcur hacc2
  · intro d st2 rd h
    exact (change_scene_frame st d st2 rd h).2.2
  · intro v st2 rd h
    exact (handle_input_paths_frame st v st2 rd h).2

/-- Witness for `select_choice_spec`: selecting choice 0 on `c6wSt`
moves to index 1 and activates the path "accept". -/
theorem select_choice_spec_witness :
    ∃ target rd, c6wSt.scenes.get? ((1 : Int).toNat) = some target ∧
      handle_choice c6wSt 0 = Except.ok
        ({ c6wSt with index := (1 : Int),
                      active_paths := activatePath c6wSt.active_paths target }, rd) ∧
      c6wSt.active_paths ⊆ activatePath c6wSt.active_paths target ∧
      (∀ p, target.path = some p → p ≠ "" → p ∈ activatePath c6wSt.active_paths target) :=
  (select_choice_spec c6wSt 0 c6scene0 (by decide) rfl).1 [⟨"go", 1⟩] ⟨"go", 1⟩
    rfl (by decide) rfl (by decide) (by decide)

/-! ## C7 -/

/-- C7: on a nonempty graph with a valid current index, `submitInput`
never reports an error, always sets the index to
`min(currentIndex + 1, lastIndex)`, and stores
`variables[inputRequest.variableName] = value` (overwriting any prior
binding, via `dictSet`) exactly when the current scene has an input
request and the value is non-empty, leaving the variables untouched
otherwise. -/
theorem submit_input_spec (st : StoryState) (v : String) (cur : SceneState)
    (h0 : 0 ≤ st.index) (hlt : st.index < (st.scenes.length : Int))
    (hcur : st.scenes.get? st.index.toNat = some cur) :
    ∃ rd, handle_input st v = Except.ok
        ({ st with vars := inputVars st cur v, index := inputNewIndex st }, rd) ∧
      inputNewIndex st = min (st.index + 1) ((st.scenes.length : Int) - 1) ∧
      (∀ ir, cur.input_request = some ir → v ≠ "" →
        inputVars st cur v = dictSet st.vars ir.variable_name v) ∧
      ((cur.input_request = none ∨ v = "") → inputVars st cur v = st.vars) := by
  have hpg : pyGet st.scenes st.index = some cur := by
    rw [pyGet_nonneg st.scenes st.index h0]; exact hcur
  have hbounds : 0 ≤ inputNewIndex st ∧ inputNewIndex st < (st.scenes.length : Int) := by
    unfold inputNewIndex
    omega
  obtain ⟨sc, hsc⟩ := get?_is_some_of_lt st.scenes (inputNewIndex st).toNat (by omega)
  have hpg2 : pyGet st.scenes (inputNewIndex st) = some sc := by
    rw [pyGet_nonneg st.scenes _ hbounds.1]; exact hsc
  refine ⟨render_scene sc (inputNewIndex st) st.scenes.length (inputVars st cur v),
    ?_, rfl, ?_, ?_⟩
  · simp only [handle_input, hpg, hpg2]
  · intro ir hir hv
    simp [inputVars, hir, hv]
  · intro h
    rcases h with h | h
    · simp [inputVars, h]
    · unfold inputVars
      cases cur.input_request with
      | none => rfl
      | some ir => simp [h]

/-- Witness for `submit_input_spec`: submitting "Al" on the
input-requesting first scene of `c7st`. -/
theorem submit_input_spec_witness :
    ∃ rd, handle_input c7st "Al" = Except.ok
        ({ c7st with vars := inputVars c7st c7scene "Al", index := inputNewIndex c7st }, rd) ∧
      inputNewIndex c7st = min (c7st.index + 1) ((c7st.scenes.length : Int) - 1) ∧
      (∀ ir, c7scene.input_request = some ir → "Al" ≠ "" →
        inputVars c7st c7scene "Al" = dictSet c7st.vars ir.variable_name "Al") ∧
      ((c7scene.input_request = none ∨ "Al" = "") → inputVars c7st c7scene "Al" = c7st.vars) :=
  submit_input_spec c7st "Al" c7scene (by decide) (by decide) rfl

/-! ## C2 -/

/-- A list of bounded addresses is disjoint from any fresh block. -/
theorem disjoint_of_below (l : List Nat) (c n : Nat) (h : ∀ a ∈ l, a < c) :
    l.Disjoint (List.range' c n) := by
  intro a ha hb
  rw [List.mem_range'_1] at hb
  have := h a ha
  omega

/-- Members of a last-element modification come from the original list,
possibly transformed. -/
theorem mem_modifyLast {α : Type} (f : α → α) :
    ∀ (l : List α) (y : α), y ∈ modifyLast f l → y ∈ l ∨ ∃ x ∈ l, y = f x := by
  intro l
  induction l with
  | nil => intro y hy; exact absurd hy (List.not_mem_nil y)
  | cons a l ih =>
    intro y hy
    cases l with
    | nil =>
      right
      exact ⟨a, List.mem_singleton.mpr rfl, (List.mem_singleton.mp hy)⟩
    | cons b l2 =>
      rw [modifyLast] at hy
      rcases List.mem_cons.mp hy with rfl | hy2
      · exact Or.inl (List.mem_cons_self y _)
      · rcases ih y hy2 with h | ⟨x, hx, rfl⟩
        · exact Or.inl (List.mem_cons_of_mem a h)
        · exact Or.inr ⟨x, List.mem_cons_of_mem a hx, rfl⟩

/-- Pairwise relations survive modifying the last element as long as
the relation tolerates the transformation on the right. -/
theorem pairwise_modifyLast {α : Type} (R : α → α → Prop) (f : α → α) :
    ∀ l : List α, List.Pairwise R l →
      (∀ x ∈ l, ∀ z ∈ l, R x z → R x (f z)) → List.Pairwise R (modifyLast f l) := by
  intro l
  induction l with
  | nil => intro _ _; exact List.Pairwise.nil
  | cons a l ih =>
    intro hp hf
    cases l with
    | nil => exact List.pairwise_singleton R (f a)
    | cons b l2 =>
      rw [modifyLast]
      obtain ⟨ha, hp2⟩ := List.pairwise_cons.mp hp
      refine List.pairwise_cons.mpr ⟨?_, ih hp2 ?_⟩
      · intro y hy
        rcases mem_modifyLast f (b :: l2) y hy with h | ⟨x, hx, rfl⟩
        · exact ha y h
        · exact hf a (List.mem_cons_self a _) x (List.mem_cons_of_mem a hx) (ha x hx)
      · intro x hx z hz hR
        exact hf x (List.mem_cons_of_mem a hx) z (List.mem_cons_of_mem a hz) hR

/-- The heap invariant only depends on states, counter and template
footprint. -/
theorem wf_of_same (b b' : Builder) (hs : b'.states = b.states) (hc : b'.ctr = b.ctr)
    (ht : b'.tmplFp = b.tmplFp) (h : WF b) : WF b' := by
  unfold WF fpBelow noAlias at h ⊢
  rw [hs, hc, ht]
  exact h

/-- Every push preserves the heap invariant: the pushed snapshot and
the new template copy get disjoint fresh blocks above everything
allocated so far. -/
theorem wf_pushState (b : Builder) (f : SceneState → SceneState) (h : WF b) :
    WF (pushState b f) := by
  obtain ⟨⟨hb1, hb2⟩, hpw, ht⟩ := h
  refine ⟨⟨?_, ?_⟩, ?_, ?_⟩
  · intro p hp a ha
    show a < b.ctr + _ + _
    rcases List.mem_append.mp hp with hp1 | hp2
    · have := hb1 p hp1 a ha; omega
    · rw [List.mem_singleton] at hp2
      subst hp2
      have := List.mem_range'_1.mp ha
      omega
  · intro a ha
    have := List.mem_range'_1.mp ha
    show a < b.ctr + _ + _
    omega
  · show List.Pairwise _ (b.states ++ [_])
    apply List.pairwise_append.mpr
    refine ⟨hpw, List.pairwise_singleton _ _, ?_⟩
    intro p hp q hq
    rw [List.mem_singleton] at hq
    subst hq
    exact disjoint_of_below p.fp b.ctr _ (fun a ha => hb1 p hp a ha)
  · intro p hp
    rcases List.mem_append.mp hp with hp1 | hp2
    · exact disjoint_of_below p.fp (b.ctr + sceneFpSize (pushedScene b f)) _
        (fun a ha => by have := hb1 p hp1 a ha; omega)
    · rw [List.mem_singleton] at hp2
      subst hp2
      intro a ha hb
      have h1 := List.mem_range'_1.mp ha
      have h2 := List.mem_range'_1.mp hb
      omega

/-- `set_characters` preserves the heap invariant: the fresh sprite
objects extend only the template footprint, above everything allocated
so far. -/
theorem wf_set_characters (b : Builder) (chars : List CharacterDefinition) (h : WF b) :
    WF (set_characters b chars) := by
  obtain ⟨⟨hb1, hb2⟩, hpw, ht⟩ := h
  refine ⟨⟨?_, ?_⟩, ?_, ?_⟩
  · intro p hp a ha
    show a < b.ctr + chars.length
    have := hb1 p hp a ha
    omega
  · intro a ha
    show a < b.ctr + chars.length
    rcases List.mem_append.mp ha with h1 | h2
    · have := hb2 a h1; omega
    · have := List.mem_range'_1.mp h2; omega
  · exact hpw
  · intro p hp
    show p.fp.Disjoint (b.tmplFp ++ _)
    rw [List.disjoint_append_right]
    exact ⟨ht p hp, disjoint_of_below p.fp b.ctr _ (fun a ha => hb1 p hp a ha)⟩

/-- `add_choice` preserves the heap invariant: the choice-list and
choice objects extend only the footprint of the last snapshot, with
fresh addresses. -/
theorem wf_add_choice (b : Builder) (t : String) (i : Int) (h : WF b) :
    WF (add_choice b t i) := by
  cases hlast : b.states.getLast? with
  | none =>
    have : add_choice b t i = b := by unfold add_choice; rw [hlast]
    rw [this]
    exact h
  | some last =>
    obtain ⟨⟨hb1, hb2⟩, hpw, ht⟩ := h
    have heq : add_choice b t i =
        { b with
          states := modifyLast (fun p =>
            ⟨{ p.data with
                 choices := some ((p.data.choices.getD []) ++ [⟨t, i⟩]) },
              p.fp ++ List.range' b.ctr
                (match last.data.choices with | none => 2 | some _ => 1)⟩) b.states,
          ctr := b.ctr + (match last.data.choices with | none => 2 | some _ => 1) } := by
      unfold add_choice
      rw [hlast]
    rw [heq]
    refine ⟨⟨?_, ?_⟩, ?_, ?_⟩
    · intro p hp a ha
      show a < b.ctr + _
      rcases mem_modifyLast _ b.states p hp with h1 | ⟨x, hx, rfl⟩
      · have := hb1 p h1 a ha; omega
      · rcases List.mem_append.mp ha with h2 | h2
        · have := hb1 x hx a h2; omega
        · have := List.mem_range'_1.mp h2; omega
    · intro a ha
      show a < b.ctr + _
      have := hb2 a ha
      omega
    · apply pairwise_modifyLast _ _ b.states hpw
      intro x hx z hz hR
      show x.fp.Disjoint (z.fp ++ _)
      rw [List.disjoint_append_right]
      exact ⟨hR, disjoint_of_below x.fp b.ctr _ (fun a ha => hb1 x hx a ha)⟩
    · intro p hp
      rcases mem_modifyLast _ b.states p hp with h1 | ⟨x, hx, rfl⟩
      · exact ht p h1
      · show (x.fp ++ _).Disjoint b.tmplFp
        rw [List.disjoint_append_left]
        refine ⟨ht x hx, ?_⟩
        intro a ha hbm
        have h1 := List.mem_range'_1.mp ha
        have h2 := hb2 a hbm
        omega

/-- The fresh builder satisfies the heap invariant. -/
theorem wf_init : WF initBuilder := by
  refine ⟨⟨?_, ?_⟩, List.Pairwise.nil, ?_⟩
  · intro p hp
    exact absurd hp (List.not_mem_nil p)
  · intro a ha
    rw [List.mem_singleton.mp ha]
    exact Nat.one_lt_two
  · intro p hp
    exact absurd hp (List.not_mem_nil p)

/-- Every builder command preserves the heap invariant. -/
theorem wf_step (b : Builder) (c : Cmd) (h : WF b) : WF (step b c) := by
  cases c with
  | setCharacters chars => exact wf_set_characters b chars h
  | setBackground url label => exact wf_pushState b _ h
  | setCamera v => exact wf_of_same b _ rfl rfl rfl h
  | setVoice v => exact wf_of_same b _ rfl rfl rfl h
  | setMotors v => exact wf_of_same b _ rfl rfl rfl h
  | setRobot v => exact wf_of_same b _ rfl rfl rfl h
  | setBackgroundBlur n => exact wf_of_same b _ rfl rfl rfl h
  | setStage url => exact wf_of_same b _ rfl rfl rfl h
  | setStageBlur n => exact wf_of_same b _ rfl rfl rfl h
  | setPath p => exact wf_of_same b _ rfl rfl rfl h
  | showCharacter name pos => exact wf_pushState b _ h
  | hideCharacter name => exact wf_pushState b _ h
  | moveCharacter name pos => exact wf_pushState b _ h
  | changeCharacterSprite name url => exact wf_pushState b _ h
  | setCharacterAnimation name anim => exact wf_pushState b _ h
  | setCharacterScale name sc => exact wf_pushState b _ h
  | dialogueCmd speaker text => exact wf_pushState b _ h
  | narrationCmd text => exact wf_pushState b _ h
  | requestInput prompt var => exact wf_pushState b _ h
  | sendMotorCommand id pos => exact wf_pushState b _ h
  | sendMotorCommands cmds => exact wf_pushState b _ h
  | sendRobotPose pose => exact wf_pushState b _ h
  | playSound file => exact wf_pushState b _ h
  | addChoice text idx => exact wf_add_choice b text idx h

/-- The heap invariant holds after any command sequence. -/
theorem wf_run (cs : List Cmd) : WF (run cs) := by
  have : ∀ b : Builder, WF b → WF (cs.foldl step b) := by
    induction cs with
    | nil => intro b hb; exact hb
    | cons c cs ih =>
      intro b hb
      rw [List.foldl_cons]
      exact ih (step b c) (wf_step b c hb)
  exact this initBuilder wf_init

/-- C2: for every builder command sequence, no two emitted snapshots
share a mutable sub-object (their heap footprints are pairwise
disjoint), and no snapshot shares a mutable sub-object with the running
template: mutating one snapshot after emission can never change another
snapshot or the template. -/
theorem snapshots_no_aliasing (cs : List Cmd) :
    List.Pairwise (fun p q => p.fp.Disjoint q.fp) (run cs).states ∧
      ∀ p ∈ (run cs).states, p.fp.Disjoint (run cs).tmplFp :=
  (wf_run cs).2
